import Mathlib

/-!
Shallow embedding of the todo-cli task store (src/main.rs).

The store holds an ordered list of tasks and a `u32` counter `next_id`.
`u32` values are embedded as `Nat`; the one arithmetic operation on them,
`store.next_id += 1` in `add_todo`, wraps modulo `2 ^ 32` as unchecked
release-mode Rust `u32` addition does.  `created_at` is produced in Rust
by `Local::now().format("%Y-%m-%d")`; the embedding threads the formatted
current date in as an explicit `today` argument.  File persistence is
embedded at the JSON-value level: `serde_json::to_string_pretty` /
`from_str` become a JSON abstract-syntax tree together with the
(de)serialization induced by the `Serialize`/`Deserialize` derives on
`Priority`, `Todo` and `TodoStore` (field names, `rename_all =
"lowercase"` on `Priority`, `Option` fields accepting `null` or a missing
key).  The state of the store file is an explicit `FileState`: absent,
present-but-unparsable text, or parsed JSON.
-/

/-- `2 ^ 32`, the modulus of Rust `u32` arithmetic. -/
def U32 : Nat := 2 ^ 32

/-- `enum Priority { High, Medium, Low }` (src/main.rs lines 7-13). -/
inductive Priority where
  | high
  | medium
  | low
deriving DecidableEq

/-- `enum ListFilter { All, Done, Pending }` (src/main.rs lines 25-30). -/
inductive ListFilter where
  | all
  | done
  | pending
deriving DecidableEq

/-- `struct Todo` (src/main.rs lines 32-40); `id: u32` as `Nat`. -/
structure Todo where
  id : Nat
  title : String
  completed : Bool
  priority : Priority
  due_date : Option String
  created_at : String
deriving DecidableEq

/-- `struct TodoStore` (src/main.rs lines 42-46); `next_id: u32` as `Nat`. -/
structure TodoStore where
  next_id : Nat
  todos : List Todo
deriving DecidableEq

/-- The `#[derive(Default)]` value of `TodoStore`: `u32` defaults to `0`
and `Vec` to empty, so `next_id = 0` with no tasks. -/
def TodoStore.defaultStore : TodoStore :=
  { next_id := 0, todos := [] }

/-- The fresh store built by `load_store` for an absent path
(src/main.rs lines 96-99): `next_id = 1`, remaining fields default. -/
def freshStore : TodoStore :=
  { next_id := 1, todos := [] }

/-- `add_todo` (src/main.rs lines 108-126).  Returns the updated store
together with the returned id.  `store.next_id += 1` wraps modulo
`2 ^ 32`; `today` is the formatted `Local::now()` date. -/
def add_todo (store : TodoStore) (title : String) (priority : Priority)
    (due : Option String) (today : String) : TodoStore × Nat :=
  let id := store.next_id
  let todo : Todo :=
    { id := id, title := title, completed := false, priority := priority,
      due_date := due, created_at := today }
  ({ next_id := (store.next_id + 1) % U32, todos := store.todos ++ [todo] }, id)

/-- The effect of `store.todos.iter_mut().find(|t| t.id == id)` followed by
`todo.completed = true` (src/main.rs lines 129-131): set `completed` on the
first list element whose id matches, returning the new list and whether a
match was found. -/
def markFirst (id : Nat) : List Todo → List Todo × Bool
  | [] => ([], false)
  | t :: ts =>
    if t.id = id then ({ t with completed := true } :: ts, true)
    else
      let r := markFirst id ts
      (t :: r.1, r.2)

/-- `mark_done` (src/main.rs lines 128-135). -/
def mark_done (store : TodoStore) (id : Nat) : TodoStore × Bool :=
  let r := markFirst id store.todos
  ({ store with todos := r.1 }, r.2)

/-- `remove_todo` (src/main.rs lines 137-141): `retain(|t| t.id != id)`,
returning whether the length strictly decreased. -/
def remove_todo (store : TodoStore) (id : Nat) : TodoStore × Bool :=
  let todos' := store.todos.filter (fun t => t.id ≠ id)
  ({ store with todos := todos' }, decide (todos'.length < store.todos.length))

/-- The match inside `filter_todos` (src/main.rs lines 147-151). -/
def filterPred (f : ListFilter) (t : Todo) : Bool :=
  match f with
  | .all => true
  | .done => t.completed
  | .pending => !t.completed

/-- `filter_todos` (src/main.rs lines 143-153): the matching tasks in
store order.  The Rust function returns references and leaves the store
untouched; the embedding is a pure function of the store. -/
def filter_todos (store : TodoStore) (f : ListFilter) : List Todo :=
  store.todos.filter (filterPred f)

/-! ### JSON values and the derived (de)serialization -/

/-- JSON values, the abstraction of the persisted file text. -/
inductive Json where
  | null
  | bool (b : Bool)
  | num (n : Nat)
  | str (s : String)
  | arr (elems : List Json)
  | obj (fields : List (String × Json))

/-- `Serialize` for `Priority` under `rename_all = "lowercase"`. -/
def Priority.toJson : Priority → Json
  | .high => .str "high"
  | .medium => .str "medium"
  | .low => .str "low"

/-- `Deserialize` for `Priority`: exactly the three lowercase literals. -/
def Priority.fromJson? : Json → Option Priority
  | .str "high" => some .high
  | .str "medium" => some .medium
  | .str "low" => some .low
  | _ => none

/-- Look up a field of a JSON object by name (first occurrence). -/
def getField (fields : List (String × Json)) (key : String) : Option Json :=
  (fields.find? (fun p => p.1 = key)).map (fun p => p.2)

/-- Deserializing a `u32` field: a number that fits in 32 bits. -/
def asU32? : Json → Option Nat
  | .num n => if n < U32 then some n else none
  | _ => none

/-- Deserializing a `String` field. -/
def asString? : Json → Option String
  | .str s => some s
  | _ => none

/-- Deserializing a `bool` field. -/
def asBool? : Json → Option Bool
  | .bool b => some b
  | _ => none

/-- `Serialize` for `Todo`: an object with the six named fields;
`due_date: Option<String>` serializes `None` as `null`. -/
def Todo.toJson (t : Todo) : Json :=
  .obj [("id", .num t.id), ("title", .str t.title),
        ("completed", .bool t.completed), ("priority", t.priority.toJson),
        ("due_date", match t.due_date with | none => .null | some d => .str d),
        ("created_at", .str t.created_at)]

/-- `Deserialize` for `Todo`: all non-`Option` fields must be present with
the right type; the `Option` field `due_date` accepts `null`, a string, or
a missing key (serde's implicit default for `Option` fields). -/
def Todo.fromJson? : Json → Option Todo
  | .obj fields => do
    let id ← (getField fields "id").bind asU32?
    let title ← (getField fields "title").bind asString?
    let completed ← (getField fields "completed").bind asBool?
    let priority ← (getField fields "priority").bind Priority.fromJson?
    let due_date ←
      match getField fields "due_date" with
      | none => some none
      | some .null => some none
      | some (.str d) => some (some d)
      | some _ => none
    let created_at ← (getField fields "created_at").bind asString?
    some { id := id, title := title, completed := completed,
           priority := priority, due_date := due_date,
           created_at := created_at }
  | _ => none

/-- Deserializing the `todos` array element by element. -/
def decodeTodos : List Json → Option (List Todo)
  | [] => some []
  | j :: js => do
    let t ← Todo.fromJson? j
    let ts ← decodeTodos js
    some (t :: ts)

/-- `Serialize` for `TodoStore`. -/
def TodoStore.toJson (s : TodoStore) : Json :=
  .obj [("next_id", .num s.next_id), ("todos", .arr (s.todos.map Todo.toJson))]

/-- `Deserialize` for `TodoStore`. -/
def TodoStore.fromJson? : Json → Option TodoStore
  | .obj fields => do
    let next_id ← (getField fields "next_id").bind asU32?
    let todos ←
      match getField fields "todos" with
      | some (.arr js) => decodeTodos js
      | _ => none
    some { next_id := next_id, todos := todos }
  | _ => none

/-- The observable state of the store file: the path does not exist, the
path holds text that is not valid JSON, or it holds a JSON value. -/
inductive FileState where
  | absent
  | unparsable
  | parsed (j : Json)

/-- `load_store` (src/main.rs lines 91-101): a fresh store (`next_id = 1`)
for an absent path; otherwise `serde_json::from_str(..).unwrap_or_default()`,
i.e. the parsed store, or `TodoStore::default()` (`next_id = 0`) when the
text is not JSON or the JSON does not deserialize.  (A read error on an
existing file panics and is outside this state space.) -/
def load_store : FileState → TodoStore
  | .absent => freshStore
  | .unparsable => TodoStore.defaultStore
  | .parsed j => (TodoStore.fromJson? j).getD TodoStore.defaultStore

/-- `save_store` (src/main.rs lines 103-106) at the JSON-value level. -/
def save_store (s : TodoStore) : Json :=
  TodoStore.toJson s

/-! ### Operation sequences, reachability, invariants -/

/-- One store mutation, as dispatched by `main`. -/
inductive Op where
  | add (title : String) (priority : Priority) (due : Option String) (today : String)
  | complete (id : Nat)
  | remove (id : Nat)

/-- Apply one operation to a store (dropping the returned id / bool). -/
def applyOp (s : TodoStore) : Op → TodoStore
  | .add title p due today => (add_todo s title p due today).1
  | .complete id => (mark_done s id).1
  | .remove id => (remove_todo s id).1

/-- Apply a sequence of operations left to right. -/
def applyOps (s : TodoStore) (ops : List Op) : TodoStore :=
  ops.foldl applyOp s

/-- Whether an operation is an `add`. -/
def Op.isAdd : Op → Bool
  | .add _ _ _ _ => true
  | _ => false

/-- The number of `add` operations in a sequence. -/
def countAdds (ops : List Op) : Nat :=
  (ops.filter Op.isAdd).length

/-- The arguments of one `add` call. -/
structure AddArgs where
  title : String
  priority : Priority
  due : Option String
  today : String

/-- The `Op` of an `add` call. -/
def AddArgs.toOp (a : AddArgs) : Op :=
  .add a.title a.priority a.due a.today

/-- Run a sequence of `add` calls, collecting the assigned ids. -/
def runAdds (s : TodoStore) : List AddArgs → TodoStore × List Nat
  | [] => (s, [])
  | a :: rest =>
    let r := add_todo s a.title a.priority a.due a.today
    let next := runAdds r.1 rest
    (next.1, r.2 :: next.2)

/-- The ids of the tasks of a store, in store order. -/
def storeIds (s : TodoStore) : List Nat :=
  s.todos.map (fun t => t.id)

/-- The invariant of claim C1: ids pairwise distinct and `next_id`
strictly above every id. -/
def StoreInv (s : TodoStore) : Prop :=
  (storeIds s).Nodup ∧ ∀ i ∈ storeIds s, i < s.next_id

instance : DecidablePred StoreInv := fun s => by
  unfold StoreInv
  infer_instance

/-- Range wellformedness of a store: every `u32`-typed field value fits in
32 bits, as the Rust types guarantee. -/
def WF (s : TodoStore) : Prop :=
  s.next_id < U32 ∧ ∀ t ∈ s.todos, t.id < U32

instance : DecidablePred WF := fun s => by
  unfold WF
  infer_instance

/-- A sample task used by concrete witnesses. -/
def mkTodo (id : Nat) (title : String) (completed : Bool) : Todo :=
  { id := id, title := title, completed := completed, priority := Priority.medium,
    due_date := none, created_at := "2026-01-01" }

/-! ### Helper lemmas about `markFirst` -/

theorem markFirst_of_not_mem (id : Nat) (l : List Todo) (h : ∀ t ∈ l, t.id ≠ id) :
    markFirst id l = (l, false) := by
  induction l with
  | nil => rfl
  | cons t ts ih =>
    have ht : ¬ t.id = id := h t (List.mem_cons_self t ts)
    simp only [markFirst, if_neg ht, ih (fun u hu => h u (List.mem_cons_of_mem t hu))]

theorem markFirst_decomp (id : Nat) (l : List Todo) (h : ∃ t ∈ l, t.id = id) :
    ∃ pre t post, l = pre ++ t :: post ∧ (∀ u ∈ pre, u.id ≠ id) ∧ t.id = id ∧
      markFirst id l = (pre ++ { t with completed := true } :: post, true) := by
  induction l with
  | nil => simp at h
  | cons a as ih =>
    by_cases ha : a.id = id
    · exact ⟨[], a, as, rfl, by simp, ha, by simp [markFirst, if_pos ha]⟩
    · obtain ⟨t, htl, hid⟩ := h
      rcases List.mem_cons.mp htl with rfl | hmem
      · exact absurd hid ha
      · obtain ⟨pre, t', post, heq, hpre, hid', hmark⟩ := ih ⟨t, hmem, hid⟩
        refine ⟨a :: pre, t', post, by simp [heq], ?_, hid', ?_⟩
        · intro u hu
          rcases List.mem_cons.mp hu with rfl | h2
          · exact ha
          · exact hpre u h2
        · simp only [markFirst, if_neg ha, hmark, List.cons_append]

theorem markFirst_map_id (id : Nat) (l : List Todo) :
    (markFirst id l).1.map (fun t => t.id) = l.map (fun t => t.id) := by
  induction l with
  | nil => rfl
  | cons a as ih =>
    by_cases ha : a.id = id
    · simp [markFirst, if_pos ha]
    · simp [markFirst, if_neg ha, ih]

theorem markFirst_idem (id : Nat) (l : List Todo) :
    markFirst id (markFirst id l).1 = ((markFirst id l).1, (markFirst id l).2) := by
  induction l with
  | nil => rfl
  | cons a as ih =>
    by_cases ha : a.id = id
    · simp [markFirst, if_pos ha]
    · simp [markFirst, if_neg ha, ih]

/-! ### Claim theorems -/

/-- C5: on an id no task carries, `complete` and `remove` both return
failure and leave the store (next_id, task count, every field, order)
unchanged. -/
theorem c5_missing_id_noop (s : TodoStore) (id : Nat)
    (h : ∀ t ∈ s.todos, t.id ≠ id) :
    mark_done s id = (s, false) ∧ remove_todo s id = (s, false) := by
  have hf : s.todos.filter (fun t => t.id ≠ id) = s.todos :=
    List.filter_eq_self.mpr (fun t ht => decide_eq_true (h t ht))
  constructor
  · show ({ s with todos := (markFirst id s.todos).1 }, (markFirst id s.todos).2) = (s, false)
    rw [markFirst_of_not_mem id s.todos h]
  · show ({ s with todos := s.todos.filter (fun t => t.id ≠ id) },
        decide ((s.todos.filter (fun t => t.id ≠ id)).length < s.todos.length)) = (s, false)
    rw [hf]
    simp

/-- Witness for C5 at a concrete store and missing id 99. -/
theorem c5_missing_id_noop_witness :
    (∀ t ∈ ({ next_id := 2, todos := [mkTodo 1 "task" false] } : TodoStore).todos, t.id ≠ 99) ∧
    mark_done { next_id := 2, todos := [mkTodo 1 "task" false] } 99 =
      ({ next_id := 2, todos := [mkTodo 1 "task" false] }, false) ∧
    remove_todo { next_id := 2, todos := [mkTodo 1 "task" false] } 99 =
      ({ next_id := 2, todos := [mkTodo 1 "task" false] }, false) :=
  ⟨by decide, (c5_missing_id_noop _ 99 (by decide)).1, (c5_missing_id_noop _ 99 (by decide)).2⟩

/-- C7: on an id some task carries, `complete` succeeds, the matched task
ends up completed, and a second `complete` on the same id also succeeds
and leaves the store exactly as after the first call. -/
theorem c7_complete_idempotent (s : TodoStore) (id : Nat)
    (h : ∃ t ∈ s.todos, t.id = id) :
    (mark_done s id).2 = true ∧
    (∃ t ∈ (mark_done s id).1.todos, t.id = id ∧ t.completed = true) ∧
    mark_done (mark_done s id).1 id = ((mark_done s id).1, true) := by
  obtain ⟨pre, t, post, heq, hpre, hid, hmark⟩ := markFirst_decomp id s.todos h
  have h2 : (mark_done s id).2 = true := by
    show (markFirst id s.todos).2 = true
    rw [hmark]
  refine ⟨h2, ?_, ?_⟩
  · refine ⟨{ t with completed := true }, ?_, hid, rfl⟩
    show { t with completed := true } ∈ (markFirst id s.todos).1
    rw [hmark]
    exact List.mem_append_right _ (List.mem_cons_self _ _)
  · show ({ (mark_done s id).1 with todos := (markFirst id (mark_done s id).1.todos).1 },
        (markFirst id (mark_done s id).1.todos).2) = ((mark_done s id).1, true)
    have ht : (mark_done s id).1.todos = (markFirst id s.todos).1 := rfl
    rw [ht, markFirst_idem]
    show ((mark_done s id).1, (mark_done s id).2) = ((mark_done s id).1, true)
    rw [h2]

/-- Witness for C7 at a concrete two-task store and id 2. -/
theorem c7_complete_idempotent_witness :
    (∃ t ∈ ({ next_id := 3, todos := [mkTodo 1 "a" false, mkTodo 2 "b" false] } : TodoStore).todos,
      t.id = 2) ∧
    (mark_done { next_id := 3, todos := [mkTodo 1 "a" false, mkTodo 2 "b" false] } 2).2 = true ∧
    (∃ t ∈ (mark_done { next_id := 3, todos := [mkTodo 1 "a" false, mkTodo 2 "b" false] } 2).1.todos,
      t.id = 2 ∧ t.completed = true) ∧
    mark_done (mark_done { next_id := 3, todos := [mkTodo 1 "a" false, mkTodo 2 "b" false] } 2).1 2 =
      ((mark_done { next_id := 3, todos := [mkTodo 1 "a" false, mkTodo 2 "b" false] } 2).1, true) :=
  ⟨by decide,
   (c7_complete_idempotent _ 2 (by decide)).1,
   (c7_complete_idempotent _ 2 (by decide)).2.1,
   (c7_complete_idempotent _ 2 (by decide)).2.2⟩

/-- C9: `complete` on a present id mutates only the `completed` field of
the first matching task: the store splits as `pre ++ t :: post` with no
match in `pre`, the result is `pre ++ (t completed) :: post`, `next_id` is
unchanged, and the call succeeds; tasks in `post` (even with the same id)
are untouched. -/
theorem c9_complete_frame (s : TodoStore) (id : Nat)
    (h : ∃ t ∈ s.todos, t.id = id) :
    ∃ pre t post, s.todos = pre ++ t :: post ∧ (∀ u ∈ pre, u.id ≠ id) ∧ t.id = id ∧
      (mark_done s id).1.todos = pre ++ { t with completed := true } :: post ∧
      (mark_done s id).1.next_id = s.next_id ∧ (mark_done s id).2 = true := by
  obtain ⟨pre, t, post, heq, hpre, hid, hmark⟩ := markFirst_decomp id s.todos h
  refine ⟨pre, t, post, heq, hpre, hid, ?_, rfl, ?_⟩
  · show (markFirst id s.todos).1 = pre ++ { t with completed := true } :: post
    rw [hmark]
  · show (markFirst id s.todos).2 = true
    rw [hmark]

/-- Witness for C9 at a store holding two tasks that share id 1: only the
first is completed. -/
theorem c9_complete_frame_witness :
    (∃ t ∈ ({ next_id := 2, todos := [mkTodo 1 "a" false, mkTodo 1 "b" false] } : TodoStore).todos,
      t.id = 1) ∧
    (∃ pre t post,
      ({ next_id := 2, todos := [mkTodo 1 "a" false, mkTodo 1 "b" false] } : TodoStore).todos =
        pre ++ t :: post ∧
      (∀ u ∈ pre, u.id ≠ 1) ∧ t.id = 1 ∧
      (mark_done { next_id := 2, todos := [mkTodo 1 "a" false, mkTodo 1 "b" false] } 1).1.todos =
        pre ++ { t with completed := true } :: post ∧
      (mark_done { next_id := 2, todos := [mkTodo 1 "a" false, mkTodo 1 "b" false] } 1).1.next_id =
        ({ next_id := 2, todos := [mkTodo 1 "a" false, mkTodo 1 "b" false] } : TodoStore).next_id ∧
      (mark_done { next_id := 2, todos := [mkTodo 1 "a" false, mkTodo 1 "b" false] } 1).2 = true) :=
  ⟨by decide, c9_complete_frame _ 1 (by decide)⟩

/-- C8: `filter` returns a sublist of the store (matching tasks in store
order): `All` keeps every task, `Done` exactly the completed ones and
`Pending` exactly the uncompleted ones.  The embedding of `filter_todos`
is a pure function, so the store argument is untouched by the call. -/
theorem c8_filter_exact (s : TodoStore) (f : ListFilter) :
    List.Sublist (filter_todos s f) s.todos ∧
    filter_todos s ListFilter.all = s.todos ∧
    (∀ t, t ∈ filter_todos s ListFilter.done ↔ t ∈ s.todos ∧ t.completed = true) ∧
    (∀ t, t ∈ filter_todos s ListFilter.pending ↔ t ∈ s.todos ∧ t.completed = false) := by
  refine ⟨List.filter_sublist s.todos, ?_, ?_, ?_⟩
  · exact List.filter_eq_self.mpr (fun t _ => rfl)
  · intro t
    simp [filter_todos, List.mem_filter, filterPred]
  · intro t
    simp [filter_todos, List.mem_filter, filterPred]

/-- A store holding two distinct tasks that share id 1; reachable in the
program by loading a file whose two task objects carry the same id. -/
def dupStore : TodoStore :=
  { next_id := 7, todos := [mkTodo 1 "first" false, mkTodo 1 "second" false] }

/-- C4 counterexample: on a store with two tasks of id 1, `remove 1`
deletes both (`retain` drops every match), so the count falls by two,
not exactly one. -/
theorem c4_counterexample :
    (∃ t ∈ dupStore.todos, t.id = 1) ∧
    ¬ ((remove_todo dupStore 1).1.todos.length + 1 = dupStore.todos.length) := by
  decide

/-- C4 (amended): on a store whose task ids are pairwise distinct and
which contains the id, `remove` succeeds, drops exactly one task, keeps
`next_id`, and the remaining tasks are the others in their original
relative order. -/
theorem c4_remove_amended (s : TodoStore) (id : Nat)
    (hnd : (storeIds s).Nodup) (h : ∃ t ∈ s.todos, t.id = id) :
    (remove_todo s id).2 = true ∧
    (remove_todo s id).1.todos.length + 1 = s.todos.length ∧
    (remove_todo s id).1.next_id = s.next_id ∧
    ∃ pre t post, s.todos = pre ++ t :: post ∧ t.id = id ∧
      (remove_todo s id).1.todos = pre ++ post := by
  obtain ⟨t, htmem, hid⟩ := h
  obtain ⟨pre, post, heq⟩ := List.append_of_mem htmem
  have hnd' : (pre.map (fun u => u.id) ++ t.id :: post.map (fun u => u.id)).Nodup := by
    have h0 := hnd
    rw [storeIds, heq] at h0
    simpa using h0
  obtain ⟨h1, h2, hdisj⟩ := List.nodup_append.mp hnd'
  have hpre : ∀ u ∈ pre, u.id ≠ id := by
    intro u hu heq'
    exact hdisj (List.mem_map_of_mem _ hu)
      (by rw [heq', ← hid]; exact List.mem_cons_self _ _)
  have hpost : ∀ u ∈ post, u.id ≠ id := by
    intro u hu heq'
    have hnm := (List.nodup_cons.mp h2).1
    exact hnm (by rw [hid, ← heq']; exact List.mem_map_of_mem _ hu)
  have hpre' : pre.filter (fun u => u.id ≠ id) = pre :=
    List.filter_eq_self.mpr (fun u hu => decide_eq_true (hpre u hu))
  have hpost' : post.filter (fun u => u.id ≠ id) = post :=
    List.filter_eq_self.mpr (fun u hu => decide_eq_true (hpost u hu))
  have hfil : s.todos.filter (fun u => u.id ≠ id) = pre ++ post := by
    rw [heq, List.filter_append, List.filter_cons_of_neg (by simp [hid]), hpre', hpost']
  have hlen : (pre ++ post).length < s.todos.length := by
    rw [heq]
    simp
  refine ⟨?_, ?_, rfl, pre, t, post, heq, hid, ?_⟩
  · show decide ((s.todos.filter (fun u => u.id ≠ id)).length < s.todos.length) = true
    rw [hfil]
    exact decide_eq_true hlen
  · show (s.todos.filter (fun u => u.id ≠ id)).length + 1 = s.todos.length
    rw [hfil, heq]
    simp [Nat.add_assoc, Nat.add_comm]
  · show s.todos.filter (fun u => u.id ≠ id) = pre ++ post
    exact hfil

/-- Witness for the amended C4 at a concrete two-task store and id 2. -/
theorem c4_remove_amended_witness :
    (storeIds { next_id := 3, todos := [mkTodo 1 "a" false, mkTodo 2 "b" false] }).Nodup ∧
    (∃ t ∈ ({ next_id := 3, todos := [mkTodo 1 "a" false, mkTodo 2 "b" false] } : TodoStore).todos,
      t.id = 2) ∧
    (remove_todo { next_id := 3, todos := [mkTodo 1 "a" false, mkTodo 2 "b" false] } 2).2 = true ∧
    (remove_todo { next_id := 3, todos := [mkTodo 1 "a" false, mkTodo 2 "b" false] } 2).1.todos.length
      + 1 =
      ({ next_id := 3, todos := [mkTodo 1 "a" false, mkTodo 2 "b" false] } : TodoStore).todos.length :=
  ⟨by decide, by decide,
   (c4_remove_amended _ 2 (by decide) (by decide)).1,
   (c4_remove_amended _ 2 (by decide) (by decide)).2.1⟩

/-- C6 (amended): `add` is total: it returns the old `next_id` as the id,
sets `next_id` to `(next_id + 1) % 2 ^ 32` — an increment by one whenever
no u32 wrap occurs — and appends a task with the returned id, the title
as given (unvalidated), `completed = false`, the given priority and due
date, and `created_at` set to the supplied current date. -/
theorem c6_add_amended (s : TodoStore) (title : String) (p : Priority)
    (due : Option String) (today : String) :
    (add_todo s title p due today).2 = s.next_id ∧
    (add_todo s title p due today).1.next_id = (s.next_id + 1) % U32 ∧
    (s.next_id + 1 < U32 → (add_todo s title p due today).1.next_id = s.next_id + 1) ∧
    (add_todo s title p due today).1.todos =
      s.todos ++ [{ id := s.next_id, title := title, completed := false, priority := p,
                    due_date := due, created_at := today }] :=
  ⟨rfl, rfl, fun h => Nat.mod_eq_of_lt h, rfl⟩

/-- Witness for the amended C6 on the fresh store. -/
theorem c6_add_amended_witness :
    (add_todo freshStore "milk" Priority.high (some "2026-03-01") "2026-02-01").2 =
      freshStore.next_id ∧
    freshStore.next_id + 1 < U32 ∧
    (add_todo freshStore "milk" Priority.high (some "2026-03-01") "2026-02-01").1.next_id =
      freshStore.next_id + 1 ∧
    (add_todo freshStore "milk" Priority.high (some "2026-03-01") "2026-02-01").1.todos =
      freshStore.todos ++
        [{ id := freshStore.next_id, title := "milk", completed := false,
           priority := Priority.high, due_date := some "2026-03-01",
           created_at := "2026-02-01" }] :=
  ⟨(c6_add_amended freshStore "milk" Priority.high (some "2026-03-01") "2026-02-01").1,
   by decide,
   (c6_add_amended freshStore "milk" Priority.high (some "2026-03-01") "2026-02-01").2.2.1
     (by decide),
   (c6_add_amended freshStore "milk" Priority.high (some "2026-03-01") "2026-02-01").2.2.2⟩

/-- C6 counterexample: at `next_id = 2 ^ 32 - 1` the u32 increment wraps
to 0, so `add` does not increment `next_id` by one there. -/
theorem c6_counterexample :
    ¬ ((add_todo { next_id := U32 - 1, todos := [] } "t" Priority.medium none
        "2026-01-01").1.next_id = (U32 - 1) + 1) := by
  decide

/-- A store whose counter sits at the top of the u32 range and which
already holds a task with id 1. -/
def wrapStore : TodoStore :=
  { next_id := U32 - 1, todos := [mkTodo 1 "old" false] }

/-- First `add` on `wrapStore`. -/
def wrapAdd1 : TodoStore × Nat := add_todo wrapStore "a" Priority.medium none "2026-01-02"

/-- Second `add` after the wrap. -/
def wrapAdd2 : TodoStore × Nat := add_todo wrapAdd1.1 "b" Priority.medium none "2026-01-02"

/-- Third `add`, colliding with the pre-existing id 1. -/
def wrapAdd3 : TodoStore × Nat := add_todo wrapAdd2.1 "c" Priority.medium none "2026-01-02"

/-- C10: with `next_id` embedded as a u32 wrapping modulo `2 ^ 32`,
`add` on a store with `next_id = 2 ^ 32 - 1` sets `next_id` to 0; the
subsequent `add` assigns id 0 — not positive, smaller than the previous
id, and a third `add` collides with an existing id 1, so assigned ids are
no longer positive, strictly increasing, or unique. -/
theorem c10_u32_wraparound :
    wrapStore.next_id = 2 ^ 32 - 1 ∧
    wrapAdd1.1.next_id = 0 ∧
    wrapAdd1.2 = 2 ^ 32 - 1 ∧
    wrapAdd2.2 = 0 ∧
    ¬ 0 < wrapAdd2.2 ∧
    wrapAdd2.2 < wrapAdd1.2 ∧
    wrapAdd3.2 = 1 ∧
    ¬ (storeIds wrapAdd3.1).Nodup := by
  decide

/-- C2 counterexample: on an existing file whose content fails to parse,
`load` returns `TodoStore::default()`, whose `next_id` is 0, not the
fresh store's 1. -/
theorem c2_counterexample : ¬ ((load_store FileState.unparsable).next_id = 1) := by
  decide

/-- C2 (amended): `load` never fails: an absent path yields the fresh
store (`next_id = 1`, no tasks); an existing file whose content is not
JSON, or whose JSON does not deserialize, yields the `Default` store with
`next_id = 0` and no tasks. -/
theorem c2_load_amended :
    load_store FileState.absent = freshStore ∧
    (load_store FileState.absent).next_id = 1 ∧
    (load_store FileState.absent).todos = [] ∧
    load_store FileState.unparsable = TodoStore.defaultStore ∧
    (load_store FileState.unparsable).next_id = 0 ∧
    (load_store FileState.unparsable).todos = [] ∧
    ∀ j, TodoStore.fromJson? j = none → load_store (FileState.parsed j) = TodoStore.defaultStore := by
  refine ⟨rfl, rfl, rfl, rfl, rfl, rfl, ?_⟩
  intro j hj
  simp [load_store, hj]

/-- Witness for the amended C2 at the JSON value `null`, which does not
deserialize to a store. -/
theorem c2_load_amended_witness :
    TodoStore.fromJson? Json.null = none ∧
    load_store (FileState.parsed Json.null) = TodoStore.defaultStore :=
  ⟨rfl, c2_load_amended.2.2.2.2.2.2 Json.null rfl⟩

/-! ### Helper lemmas for reachability (claim C1) -/

theorem countAdds_cons_add (title : String) (p : Priority) (due : Option String)
    (today : String) (rest : List Op) :
    countAdds (Op.add title p due today :: rest) = countAdds rest + 1 := by
  simp [countAdds, Op.isAdd]

theorem countAdds_cons_complete (id : Nat) (rest : List Op) :
    countAdds (Op.complete id :: rest) = countAdds rest := by
  simp [countAdds, Op.isAdd]

theorem countAdds_cons_remove (id : Nat) (rest : List Op) :
    countAdds (Op.remove id :: rest) = countAdds rest := by
  simp [countAdds, Op.isAdd]

theorem storeIds_add_todo (s : TodoStore) (title : String) (p : Priority)
    (due : Option String) (today : String) :
    storeIds (add_todo s title p due today).1 = storeIds s ++ [s.next_id] := by
  simp [storeIds, add_todo]

theorem storeIds_mark_done (s : TodoStore) (id : Nat) :
    storeIds (mark_done s id).1 = storeIds s :=
  markFirst_map_id id s.todos

theorem storeIds_remove_sublist (s : TodoStore) (id : Nat) :
    List.Sublist (storeIds (remove_todo s id).1) (storeIds s) :=
  List.Sublist.map _ (List.filter_sublist s.todos)

theorem applyOps_inv (ops : List Op) :
    ∀ s : TodoStore, (storeIds s).Pairwise (· < ·) → (∀ i ∈ storeIds s, i < s.next_id) →
      s.next_id + countAdds ops < U32 →
      (storeIds (applyOps s ops)).Pairwise (· < ·) ∧
      (∀ i ∈ storeIds (applyOps s ops), i < (applyOps s ops).next_id) := by
  induction ops with
  | nil => exact fun s h1 h2 _ => ⟨h1, h2⟩
  | cons o rest ih =>
    intro s h1 h2 hbound
    have happ : applyOps s (o :: rest) = applyOps (applyOp s o) rest := rfl
    rw [happ]
    cases o with
    | add title p due today =>
      have hcnt : countAdds (Op.add title p due today :: rest) = countAdds rest + 1 :=
        countAdds_cons_add title p due today rest
      have hlt : s.next_id + 1 < U32 := by
        rw [hcnt] at hbound
        omega
      have hnid : (applyOp s (Op.add title p due today)).next_id = s.next_id + 1 := by
        show (s.next_id + 1) % U32 = s.next_id + 1
        exact Nat.mod_eq_of_lt hlt
      have hids : storeIds (applyOp s (Op.add title p due today)) = storeIds s ++ [s.next_id] :=
        storeIds_add_todo s title p due today
      refine ih _ ?_ ?_ ?_
      · rw [hids]
        refine List.pairwise_append.mpr ⟨h1, List.pairwise_singleton _ _, ?_⟩
        intro a ha b hb
        rw [List.mem_singleton] at hb
        subst hb
        exact h2 a ha
      · intro i hi
        rw [hids] at hi
        rw [hnid]
        rcases List.mem_append.mp hi with hiold | hinew
        · exact Nat.lt_succ_of_lt (h2 i hiold)
        · rw [List.mem_singleton] at hinew
          subst hinew
          exact Nat.lt_succ_self _
      · rw [hnid]
        rw [hcnt] at hbound
        omega
    | complete id =>
      have hids : storeIds (applyOp s (Op.complete id)) = storeIds s :=
        storeIds_mark_done s id
      refine ih _ ?_ ?_ ?_
      · rw [hids]; exact h1
      · intro i hi
        rw [hids] at hi
        exact h2 i hi
      · show s.next_id + countAdds rest < U32
        rw [countAdds_cons_complete] at hbound
        exact hbound
    | remove id =>
      have hsub : List.Sublist (storeIds (applyOp s (Op.remove id))) (storeIds s) :=
        storeIds_remove_sublist s id
      refine ih _ ?_ ?_ ?_
      · exact List.Pairwise.sublist hsub h1
      · intro i hi
        exact h2 i (hsub.subset hi)
      · show s.next_id + countAdds rest < U32
        rw [countAdds_cons_remove] at hbound
        exact hbound

theorem runAdds_spec (args : List AddArgs) :
    ∀ s : TodoStore, s.next_id < U32 → s.next_id + args.length ≤ U32 →
      (runAdds s args).2 = List.range' s.next_id args.length ∧
      (runAdds s args).1.next_id = (s.next_id + args.length) % U32 := by
  induction args with
  | nil =>
    intro s hs _
    exact ⟨rfl, (Nat.mod_eq_of_lt hs).symm⟩
  | cons a rest ih =>
    intro s hs hlen
    rcases Nat.lt_or_ge (s.next_id + 1) U32 with hlt | hge
    · have hnid : (add_todo s a.title a.priority a.due a.today).1.next_id = s.next_id + 1 := by
        show (s.next_id + 1) % U32 = s.next_id + 1
        exact Nat.mod_eq_of_lt hlt
      have hrec := ih (add_todo s a.title a.priority a.due a.today).1
        (by rw [hnid]; exact hlt)
        (by rw [hnid]; simp only [List.length_cons] at hlen; omega)
      constructor
      · show s.next_id :: (runAdds (add_todo s a.title a.priority a.due a.today).1 rest).2 =
          List.range' s.next_id (rest.length + 1)
        rw [List.range'_succ s.next_id rest.length 1, hrec.1, hnid]
      · show (runAdds (add_todo s a.title a.priority a.due a.today).1 rest).1.next_id =
          (s.next_id + (rest.length + 1)) % U32
        rw [hrec.2, hnid]
        ring_nf
    · have heq : s.next_id + 1 = U32 := by
        have : s.next_id + 1 ≤ U32 := Nat.succ_le_of_lt hs
        omega
      have hrest : rest.length = 0 := by
        simp only [List.length_cons] at hlen
        omega
      rw [List.length_eq_zero.mp hrest]
      constructor
      · show [s.next_id] = List.range' s.next_id 1
        rfl
      · show (s.next_id + 1) % U32 = (s.next_id + 1) % U32
        rfl

theorem storeIds_runAdds (args : List AddArgs) :
    ∀ s : TodoStore, storeIds (runAdds s args).1 = storeIds s ++ (runAdds s args).2 := by
  induction args with
  | nil => intro s; simp [runAdds]
  | cons a rest ih =>
    intro s
    show storeIds (runAdds (add_todo s a.title a.priority a.due a.today).1 rest).1 =
      storeIds s ++ s.next_id :: (runAdds (add_todo s a.title a.priority a.due a.today).1 rest).2
    rw [ih, storeIds_add_todo]
    simp

theorem applyOps_map_toOp (args : List AddArgs) :
    ∀ s : TodoStore, applyOps s (args.map AddArgs.toOp) = (runAdds s args).1 := by
  induction args with
  | nil => intro s; rfl
  | cons a rest ih => intro s; exact ih _

theorem countAdds_map_toOp (args : List AddArgs) :
    countAdds (args.map AddArgs.toOp) = args.length := by
  induction args with
  | nil => rfl
  | cons a rest ih =>
    show countAdds (Op.add a.title a.priority a.due a.today :: rest.map AddArgs.toOp) =
      rest.length + 1
    rw [countAdds_cons_add, ih]

/-- C1 (amended): the id-uniqueness invariant holds on every store
reachable from the fresh store by a sequence of operations with fewer
than `2 ^ 32 - 1` adds (beyond that the u32 counter wraps, see the
counterexample), and every sequence of at most `2 ^ 32 - 1` `add` calls
from the fresh store assigns the strictly increasing ids `1, 2, ...`. -/
theorem c1_invariant_amended (ops : List Op) (args : List AddArgs)
    (hops : countAdds ops < U32 - 1) (hargs : args.length < U32) :
    StoreInv (applyOps freshStore ops) ∧
    (runAdds freshStore args).2 = List.range' 1 args.length := by
  have hU : U32 = 4294967296 := rfl
  constructor
  · have h := applyOps_inv ops freshStore (by simp [storeIds, freshStore])
      (by simp [storeIds, freshStore])
      (by show 1 + countAdds ops < U32; omega)
    exact ⟨List.Pairwise.imp (fun hab => Nat.ne_of_lt hab) h.1, h.2⟩
  · have h := runAdds_spec args freshStore (by show 1 < U32; omega)
      (by show 1 + args.length ≤ U32; omega)
    exact h.1

/-- Witness for the amended C1 on a short concrete history. -/
theorem c1_invariant_amended_witness :
    countAdds [Op.add "a" Priority.low none "2026-01-01",
               Op.add "b" Priority.high none "2026-01-01",
               Op.complete 1, Op.remove 2] < U32 - 1 ∧
    ([⟨"a", Priority.low, none, "2026-01-01"⟩,
      ⟨"b", Priority.high, none, "2026-01-01"⟩] : List AddArgs).length < U32 ∧
    StoreInv (applyOps freshStore
      [Op.add "a" Priority.low none "2026-01-01",
       Op.add "b" Priority.high none "2026-01-01",
       Op.complete 1, Op.remove 2]) ∧
    (runAdds freshStore
      [⟨"a", Priority.low, none, "2026-01-01"⟩,
       ⟨"b", Priority.high, none, "2026-01-01"⟩]).2 = List.range' 1 2 :=
  ⟨by decide, by decide,
   (c1_invariant_amended
     [Op.add "a" Priority.low none "2026-01-01", Op.add "b" Priority.high none "2026-01-01",
      Op.complete 1, Op.remove 2]
     [⟨"a", Priority.low, none, "2026-01-01"⟩, ⟨"b", Priority.high, none, "2026-01-01"⟩]
     (by decide) (by decide)).1,
   (c1_invariant_amended
     [Op.add "a" Priority.low none "2026-01-01", Op.add "b" Priority.high none "2026-01-01",
      Op.complete 1, Op.remove 2]
     [⟨"a", Priority.low, none, "2026-01-01"⟩, ⟨"b", Priority.high, none, "2026-01-01"⟩]
     (by decide) (by decide)).2⟩

/-- The `2 ^ 32 - 1` identical `add` calls leading the fresh store to a
wrapped counter. -/
def addManyArgs : List AddArgs :=
  List.replicate (U32 - 1)
    { title := "t", priority := Priority.medium, due := none, today := "2026-01-01" }

/-- C1 counterexample: the store reached from the fresh store by
`2 ^ 32 - 1` `add` operations is reachable in the claim's sense, yet its
`next_id` has wrapped to 0, which is not greater than the stored id 1, so
the claimed invariant fails on it. -/
theorem c1_counterexample :
    ¬ StoreInv (applyOps freshStore (addManyArgs.map AddArgs.toOp)) := by
  have hU : U32 = 4294967296 := rfl
  have hfresh : freshStore.next_id = 1 := rfl
  have hlen : addManyArgs.length = U32 - 1 := List.length_replicate _ _
  have h1 : freshStore.next_id < U32 := by
    rw [hfresh]
    omega
  have h2 : freshStore.next_id + addManyArgs.length ≤ U32 := by
    rw [hfresh, hlen]
    omega
  have hspec := runAdds_spec addManyArgs freshStore h1 h2
  have hids : storeIds (runAdds freshStore addManyArgs).1 = List.range' 1 (U32 - 1) := by
    rw [storeIds_runAdds, hspec.1, hfresh, hlen]
    simp [storeIds, freshStore]
  have hnid : (runAdds freshStore addManyArgs).1.next_id = 0 := by
    rw [hspec.2, hfresh, hlen, hU]
  have heqrun : applyOps freshStore (addManyArgs.map AddArgs.toOp) =
      (runAdds freshStore addManyArgs).1 :=
    applyOps_map_toOp addManyArgs freshStore
  have hone : (1 : Nat) ∈ storeIds (runAdds freshStore addManyArgs).1 := by
    rw [hids, List.mem_range'_1]
    omega
  intro hinv
  have hlt := hinv.2 1 (heqrun ▸ hone)
  rw [heqrun, hnid] at hlt
  exact Nat.not_lt_zero 1 hlt

/-! ### Round trip of the derived (de)serialization (claim C3) -/

theorem priorityJson_roundtrip (p : Priority) : Priority.fromJson? p.toJson = some p := by
  cases p <;> rfl

theorem todoJson_roundtrip (t : Todo) (h : t.id < U32) :
    Todo.fromJson? t.toJson = some t := by
  obtain ⟨i, title, c, p, d, ca⟩ := t
  simp only [Todo.toJson, Todo.fromJson?, getField, List.find?]
  cases p <;> cases d <;>
    simp [asU32?, asString?, asBool?, Priority.toJson, Priority.fromJson?, h]

theorem decodeTodos_map_toJson (l : List Todo) (h : ∀ t ∈ l, t.id < U32) :
    decodeTodos (l.map Todo.toJson) = some l := by
  induction l with
  | nil => rfl
  | cons t ts ih =>
    have ht : Todo.fromJson? t.toJson = some t :=
      todoJson_roundtrip t (h t (List.mem_cons_self t ts))
    have hts := ih (fun u hu => h u (List.mem_cons_of_mem t hu))
    simp [decodeTodos, ht, hts]

/-- C3: serializing a store and deserializing the result returns the
original store — same `next_id`, same tasks with every field, in the same
order — for every store whose u32 fields are in range (which the Rust
types guarantee).  The persisted text is embedded at the JSON-value
level; the spec itself makes exact whitespace a non-contract. -/
theorem c3_save_load_roundtrip (s : TodoStore) (h : WF s) :
    load_store (FileState.parsed (save_store s)) = s := by
  obtain ⟨n, todos⟩ := s
  obtain ⟨hn, ht⟩ := h
  have hdec : decodeTodos (todos.map Todo.toJson) = some todos :=
    decodeTodos_map_toJson todos ht
  simp only [save_store, load_store, TodoStore.toJson, TodoStore.fromJson?, getField,
    List.find?]
  simp [asU32?, hn, hdec]

/-- A concrete store exercising both priorities with and without a due
date, a completed and a pending task. -/
def rtStore : TodoStore :=
  { next_id := 3,
    todos := [mkTodo 1 "a" true,
              { id := 2, title := "b", completed := false, priority := Priority.high,
                due_date := some "2026-12-31", created_at := "2026-01-01" }] }

/-- Witness for C3 on `rtStore`. -/
theorem c3_save_load_roundtrip_witness :
    WF rtStore ∧ load_store (FileState.parsed (save_store rtStore)) = rtStore :=
  ⟨by decide, c3_save_load_roundtrip rtStore (by decide)⟩
